import Mathlib

/-!
Shallow embedding of the retrieval-augmented consultation core of
`ai_assistant.py` (repository HOIARRTool/ToolB1), together with proofs that
settle the specification claims about it.

Modelling conventions:
* Python strings are modelled as `List Char`.
* Python's machine floats (the Jaccard score and its `1e-9` epsilon) are
  modelled as exact rationals `ℚ`.
* Python exceptions inside the orchestrator's `try` block are modelled with
  `Except`; a raising generation backend call is an oracle returning
  `.error msg`.
* The character classes of Python's `\s` regex class and of `str.strip()` are
  modelled by their ASCII members (space, tab, newline, carriage return,
  vertical tab, form feed).
* The process-wide knowledge-base cache (`_KB_CACHE`, `_KB_NGRAM_CACHE`) is
  modelled as an explicit `Option` state threaded through `_load_kb_once`;
  both globals are only ever assigned together (line 76), so a single
  `Option` of the pair is used.
-/

/-- The ASCII characters matched by Python's `\s` and stripped by
`str.strip()`. -/
def isPySpace (c : Char) : Bool :=
  c = ' ' || c = '\t' || c = '\n' || c = '\r' || c = Char.ofNat 11 || c = Char.ofNat 12

/-- Python `s.lstrip()` (the left half of `str.strip()`). -/
def pyLStrip (s : List Char) : List Char := s.dropWhile isPySpace

/-- Python `s.rstrip()`. -/
def pyRStrip (s : List Char) : List Char := (s.reverse.dropWhile isPySpace).reverse

/-- Python `s.strip()`. -/
def pyStrip (s : List Char) : List Char := pyRStrip (pyLStrip s)

/-- `re.sub(r"\s+", " ", s)` (line 39): collapse every maximal whitespace run
to a single space. -/
def collapseWs : List Char → List Char
  | [] => []
  | c :: cs =>
    if isPySpace c then
      match cs with
      | [] => [' ']
      | c' :: _ => if isPySpace c' then collapseWs cs else ' ' :: collapseWs cs
    else c :: collapseWs cs

/-- `_norm_text` (lines 37–40): lowercase, collapse whitespace runs, strip. -/
def _norm_text (s : List Char) : List Char :=
  pyStrip (collapseWs (s.map Char.toLower))

/-- `_char_ngrams` (lines 42–47): the character n-gram set of the normalised,
space-free text. -/
def _char_ngrams (s : List Char) (n : Nat := 2) : Finset (List Char) :=
  let t := (_norm_text s).filter (fun c => c != ' ')
  if t.length ≤ n then (if t = [] then (∅ : Finset (List Char)) else {t})
  else ((List.range (t.length - n + 1)).map (fun i => (t.drop i).take n)).toFinset

/-- Classification of the JSON value held by a knowledge-base record's `text`
field, as far as the loader's behaviour distinguishes it:
* `jstr s` — a JSON string;
* `jfalsy` — a falsy non-string value (`null`, `false`, `0`, `[]`, `{}`):
  `(s or "").lower()` turns these into the empty string;
* `jtruthy` — a truthy non-string value (a nonzero number, `true`, a nonempty
  array or object): `s.lower()` raises `AttributeError` on these. -/
inductive JText where
  | jstr (s : List Char)
  | jfalsy
  | jtruthy
deriving DecidableEq

/-- A knowledge-base record as produced by `json.loads` on one line.
`type?` and `codes` are modelled at the types the rendering code assumes
(a string tag and a list of strings); `codes` already folds in the
`doc.get("codes") or []` defaulting, under which an absent, null or empty
`codes` field are indistinguishable. -/
structure JDoc where
  type? : Option (List Char) := none
  codes : List (List Char) := []
  text? : Option JText := none
deriving DecidableEq, Inhabited

/-- The loader's view of one line of `knowledge_base.jsonl`: blank after
stripping, not valid JSON (skipped by the blanket `except`; a line parsing to
a JSON non-object behaves the same, as `obj.get` raises), or a parsed
record. -/
inductive KbLine where
  | blank
  | notJson
  | obj (d : JDoc)
deriving DecidableEq

/-- The cached pair `(_KB_CACHE, _KB_NGRAM_CACHE)`. -/
abbrev KB := List JDoc × List (Finset (List Char))

/-- `obj.get("text", "")` (line 66). -/
def kbTextVal (d : JDoc) : JText := d.text?.getD (JText.jstr [])

/-- One iteration of the loading loop body (lines 60–71).  On a parsed record
`docs.append(obj)` runs first; if the `text` value is truthy and not a string,
`_char_ngrams(txt)` then raises (`.lower()` on a non-string) and the blanket
`except` skips the rest of the iteration, so the n-gram append is lost while
the document append survives. -/
def loadLine (st : KB) : KbLine → KB
  | .blank => st
  | .notJson => st
  | .obj d =>
    match kbTextVal d with
    | .jstr s => (st.1 ++ [d], st.2 ++ [_char_ngrams s])
    | .jfalsy => (st.1 ++ [d], st.2 ++ [_char_ngrams []])
    | .jtruthy => (st.1 ++ [d], st.2)

/-- The loading loop (lines 55–71) over a whole file. -/
def parseKbFile (file : List KbLine) : KB := file.foldl loadLine ([], [])

/-- `_load_kb_once` (lines 49–76) as a state transformer on the cache.  The
`file` argument is the content the path resolves to (`none` models
`FileNotFoundError`, which yields the empty knowledge base, line 72–74). -/
def _load_kb_once (cache : Option KB) (file : Option (List KbLine)) : Option KB :=
  match cache with
  | some kb => some kb
  | none =>
    match file with
    | none => some ([], [])
    | some lines => some (parseKbFile lines)

/-- The Python float literal `1e-9` (line 100), modelled as the exact
rational. -/
def jaccardEps : ℚ := 1 / 1000000000

/-- The Jaccard score of line 100: `inter / (len(qset | dset) + 1e-9)`. -/
def jaccardScore (qset dset : Finset (List Char)) : ℚ :=
  ((qset ∩ dset).card : ℚ) / (((qset ∪ dset).card : ℚ) + jaccardEps)

/-- The scoring loop (lines 92–101): skip documents with an empty n-gram set
or an empty intersection, otherwise record `(score, index)`. -/
def scoredOf (qset : Finset (List Char)) (ngrams : List (Finset (List Char))) :
    List (ℚ × Nat) :=
  ngrams.enum.filterMap (fun p =>
    if p.2 = ∅ then none
    else if (qset ∩ p.2).card = 0 then none
    else some (jaccardScore qset p.2, p.1))

/-- Insertion step of a stable descending sort keyed on the score alone:
an element passes over exactly the strictly larger heads, so equal-score
elements keep their relative order. -/
def insertDescByScore (x : ℚ × Nat) : List (ℚ × Nat) → List (ℚ × Nat)
  | [] => [x]
  | y :: ys => if y.1 ≤ x.1 then x :: y :: ys else y :: insertDescByScore x ys

/-- `scored.sort(reverse=True, key=lambda x: x[0])` (line 106): Python's sort
is stable and `reverse=True` preserves the order of equal keys, i.e. it is
the unique stable descending sort keyed on the score. -/
def sortByScoreDesc (l : List (ℚ × Nat)) : List (ℚ × Nat) :=
  l.foldr insertDescByScore []

/-- `picked = [i for _, i in scored[:max(1, top_k)]]` (line 107). -/
def pickedOf (scored : List (ℚ × Nat)) (top_k : Int) : List Nat :=
  ((sortByScoreDesc scored).take (max 1 top_k).toNat).map (fun p => p.2)

/-- `(doc.get("text") or "")` at line 116.  A `jtruthy` value would make the
subsequent `.strip()` raise in Python (the same defect recorded for the
loader, claim C10); it is mapped to the empty string here and the theorems
about rendering carry a `RenderableKb` hypothesis excluding it. -/
def docRenderText (d : JDoc) : List Char :=
  match d.text? with
  | none => []
  | some (.jstr s) => s
  | some .jfalsy => []
  | some .jtruthy => []

/-- Knowledge bases on which the bullet rendering of lines 111–126 does not
raise: no document carries a truthy non-string `text` value. -/
def RenderableKb (docs : List JDoc) : Prop :=
  ∀ d ∈ docs, d.text? ≠ some JText.jtruthy

/-- Rendering of one bullet (lines 112–122). -/
def pieceOf (d : JDoc) : List Char :=
  let dtype := d.type?.getD ("kb".toList)
  let codes_txt :=
    if d.codes = [] then ([] : List Char)
    else (" | codes: ".toList) ++ List.intercalate (", ".toList) d.codes
  let txt0 := pyStrip (docRenderText d)
  let txt := if 900 < txt0.length then pyRStrip (txt0.take 900) ++ ['…'] else txt0
  ("- [".toList) ++ dtype ++ ("]".toList) ++ codes_txt ++ ("\n  ".toList) ++ txt

/-- The accumulation loop of lines 109–126: append rendered bullets while the
running total stays within `max_chars`, stopping (`break`) at the first bullet
that would push the total past it.  The running total counts bullet lengths
only — not the newline separators later inserted by `"\n".join`. -/
def chunksGo (docs : List JDoc) (max_chars : Int) : List Nat → Nat → List (List Char)
  | [], _ => []
  | i :: rest, total =>
    let piece := pieceOf (docs.getD i default)
    if max_chars < (total : Int) + piece.length then []
    else piece :: chunksGo docs max_chars rest (total + piece.length)

/-- Sentinel of line 86 (knowledge base missing or empty). -/
def SENTINEL_NO_KB : List Char :=
  "(ไม่พบไฟล์ฐานความรู้ knowledge_base.jsonl หรือฐานความรู้ยังว่าง)".toList

/-- Sentinel of line 90 (empty query n-gram set). -/
def SENTINEL_EMPTY_QUERY : List Char :=
  "(query ว่าง จึงไม่สามารถดึงฐานความรู้ได้)".toList

/-- Sentinel of line 104 (no document with nonzero intersection). -/
def SENTINEL_NO_MATCH : List Char :=
  "(ไม่พบส่วนที่ match ในฐานความรู้ — จะวิเคราะห์จากข้อความเคสเป็นหลัก)".toList

/-- Sentinel of line 128 (every bullet excluded by the size budget). -/
def SENTINEL_BUDGET : List Char :=
  "(ดึงฐานความรู้ได้ แต่ถูกตัดด้วย max_chars)".toList

/-- `retrieve_relevant_knowledge` (lines 78–128).  The loaded cache is passed
explicitly instead of through the process-wide globals (`_load_kb_once` has
already run); the `kb_path` parameter therefore has no further effect and is
omitted. -/
def retrieve_relevant_knowledge (kb : KB) (query : List Char)
    (top_k : Int := 12) (max_chars : Int := 5000) : List Char :=
  if kb.1 = [] ∨ kb.2 = [] then SENTINEL_NO_KB
  else
    let qset := _char_ngrams query
    if qset = ∅ then SENTINEL_EMPTY_QUERY
    else
      let scored := scoredOf qset kb.2
      if scored = [] then SENTINEL_NO_MATCH
      else
        let chunks := chunksGo kb.1 max_chars (pickedOf scored top_k) 0
        if chunks = [] then SENTINEL_BUDGET
        else List.intercalate ("\n".toList) chunks

/-- The code-fence marker, three backticks. -/
def fenceMarker : List Char := ['`', '`', '`']

/-- A string contains a code-fence marker. -/
def HasFence (s : List Char) : Prop := fenceMarker <:+: s

instance (s : List Char) : Decidable (HasFence s) :=
  inferInstanceAs (Decidable (fenceMarker <:+: s))

/-- Length of the leading whitespace run (`\s*` matched greedily). -/
def wsRunLen (s : List Char) : Nat := (s.takeWhile isPySpace).length

/-- Case-insensitive test that `tag` (given in lowercase) is the next text. -/
def ciHasTag (tag : List Char) (s : List Char) : Bool :=
  (s.take tag.length).map Char.toLower == tag

/-- Length consumed by the optional `(?:html|markdown|md|json)?` group of
`_FENCE_RE` (line 133): the alternatives are tried in the pattern's order and
the group is greedy, so the first alternative that matches is taken. -/
def fenceTagLen (s : List Char) : Nat :=
  if ciHasTag ("html".toList) s then 4
  else if ciHasTag ("markdown".toList) s then 8
  else if ciHasTag ("md".toList) s then 2
  else if ciHasTag ("json".toList) s then 4
  else 0

/-- Leftmost match of `_FENCE_RE` at the head of `s`, returning the number of
characters it consumes.  The first alternative
`` ```(?:html|markdown|md|json)?\s* `` is tried first; the second,
`` \s*``` ``, can only match with a nonzero whitespace run (with a zero run it
would be subsumed by the first) and, being greedy over `\s` followed by a
non-whitespace literal, matches exactly the full run followed by the marker. -/
def fenceMatchAt (s : List Char) : Option Nat :=
  if fenceMarker.isPrefixOf s then
    let r := s.drop 3
    let t := fenceTagLen r
    some (3 + t + wsRunLen (r.drop t))
  else
    let w := wsRunLen s
    if 0 < w && fenceMarker.isPrefixOf (s.drop w) then some (w + 3) else none

/-- `_FENCE_RE.sub("", text)`: scan left to right, removing each leftmost
non-overlapping match and resuming after it.  Every match consumes at least
three characters, so fuel equal to the string length suffices and the fuel
branch is never taken from `fenceSub`. -/
def fenceSubAux : Nat → List Char → List Char
  | 0, s => s
  | _ + 1, [] => []
  | n + 1, c :: cs =>
    match fenceMatchAt (c :: cs) with
    | some k => fenceSubAux n ((c :: cs).drop k)
    | none => c :: fenceSubAux n cs

/-- `_FENCE_RE.sub("", text)` (line 138, the substitution only). -/
def fenceSub (s : List Char) : List Char := fenceSubAux s.length s

/-- `_strip_code_fences` (lines 135–138): empty in, empty out; otherwise the
regex substitution followed by `str.strip()`. -/
def _strip_code_fences (s : List Char) : List Char :=
  if s = [] then [] else pyStrip (fenceSub s)

/-- The fixed apology of line 233, returned when `google.generativeai` is not
installed. -/
def APOLOGY_NO_GENAI : List Char :=
  "ขออภัยครับ ไลบรารี google.generativeai ไม่ได้ถูกติดตั้ง".toList

/-- The fallback text of line 400 up to the interpolated exception text. -/
def ERROR_FALLBACK_HEAD : List Char :=
  "ขออภัยครับ เกิดข้อผิดพลาดในการเชื่อมต่อกับ AI: ".toList

/-- `PLANNING_INPUTS_APPENDIX` (lines 167–178).  The static Thai body is
abbreviated to its headline; no claim depends on its content. -/
def PLANNING_INPUTS_APPENDIX : List Char :=
  "\n**ข้อกำหนดเพิ่มเติม (สำคัญมาก):** ... ### 8. ประมวลผลเพื่อจัดทำแผนพัฒนา ...\n".toList

/-- The master-prompt f-string of lines 240–368 around its first substitution
slot (role and guidance text through the first `retrieved_knowledge`
interpolation).  Static Thai body abbreviated; no claim depends on it. -/
def MASTER_SEG1 : List Char :=
  "\n**บทบาท:** ... **ฐานข้อมูลความรู้:** [รหัส NRLS & HRMS]\n".toList

/-- Master prompt between its two `retrieved_knowledge` slots (severity
rubrics A–I and 1–5, contributing factors F0001–F0036).  Abbreviated. -/
def MASTER_SEG2 : List Char :=
  "\n[ระดับความรุนแรง] ... [Contributing factor] F0001 ... F0036 ... NOWLEDGE BASE:\n".toList

/-- Master prompt between the second `retrieved_knowledge` slot and the
`incident_description` slot.  Abbreviated. -/
def MASTER_SEG3 : List Char :=
  "\n**รายละเอียดอุบัติการณ์จากผู้ใช้:**\n'''\n".toList

/-- Master prompt after the `incident_description` slot (the section-1–7
instructions).  Abbreviated. -/
def MASTER_SEG4 : List Char :=
  "\n'''\n**คำสั่ง:** ### 1. ... ### 7. ...\n".toList

/-- The composed master prompt (lines 240–368 and the appendix concatenation
of line 372): `retrieved_knowledge` is interpolated twice, the incident text
once, then `"\n\n" + PLANNING_INPUTS_APPENDIX` is appended. -/
def masterPrompt (retrieved incident : List Char) : List Char :=
  MASTER_SEG1 ++ retrieved ++ MASTER_SEG2 ++ retrieved ++ MASTER_SEG3 ++ incident
    ++ MASTER_SEG4 ++ ("\n\n".toList) ++ PLANNING_INPUTS_APPENDIX

/-- `EXECUTIVE_PLAN_PROMPT_TEMPLATE` (lines 184–220) before its
`incident_description` slot.  Abbreviated. -/
def EXEC_SEG1 : List Char :=
  "\nคุณคือ ... ผู้ใช้ให้รายละเอียดอุบัติการณ์ดังนี้:\n".toList

/-- Executive template between its two slots.  Abbreviated. -/
def EXEC_SEG2 : List Char :=
  "\nและมีผลวิเคราะห์เชิงเทคนิค (หัวข้อ 1-6) จาก AI แล้วด้านล่างนี้:\n".toList

/-- Executive template after the `consultation_text` slot (sections 9–10
instructions).  Abbreviated. -/
def EXEC_SEG3 : List Char :=
  "\n### 9. แผนพัฒนา ... ### 10. บทสรุปผู้บริหาร ...\n".toList

/-- `EXECUTIVE_PLAN_PROMPT_TEMPLATE.format(...)` (lines 387–390). -/
def execPrompt (incident consultation : List Char) : List Char :=
  EXEC_SEG1 ++ incident ++ EXEC_SEG2 ++ consultation ++ EXEC_SEG3

/-- `get_consultation_response` (lines 226–400).  Besides the incident text it
takes the availability of the `google.generativeai` import, the loaded
knowledge base and the generation backend as explicit inputs; the backend is
an oracle from the prompt to either a response text (`getattr(resp, "text",
"") or ""` already applied) or a raised exception's message.  The result pairs
the returned string with the list of prompts sent to the backend, in order, so
that "zero outbound calls" and "no Step-2 call" are observable. -/
def get_consultation_response (genaiAvailable : Bool) (kb : KB) (incident : List Char)
    (gen : List Char → Except (List Char) (List Char)) : List Char × List (List Char) :=
  if genaiAvailable = false then (APOLOGY_NO_GENAI, [])
  else
    let retrieved := retrieve_relevant_knowledge kb incident 12 5000
    let p1 := masterPrompt retrieved incident
    match gen p1 with
    | .error e => (ERROR_FALLBACK_HEAD ++ e, [p1])
    | .ok raw1 =>
      let consultation_text := _strip_code_fences raw1
      let p2 := execPrompt (pyStrip incident) (pyStrip consultation_text)
      match gen p2 with
      | .error e => (ERROR_FALLBACK_HEAD ++ e, [p1, p2])
      | .ok raw2 =>
        let extra_markdown := pyStrip raw2
        let combined0 := pyStrip consultation_text
        let combined :=
          if extra_markdown = [] then combined0
          else combined0 ++ ("\n\n".toList) ++ extra_markdown
        (combined, [p1, p2])

/-- Total length of a list of chunks (no separators). -/
def sumLens (l : List (List Char)) : Nat := (l.map List.length).sum

/-- The failing input for C10: a knowledge-base file whose first line is
`{"text": 5}` (a `text` field that is truthy but not a string) followed by a
well-formed line `{"text": "ab"}`. -/
def c10File : List KbLine :=
  [KbLine.obj { text? := some JText.jtruthy },
   KbLine.obj { text? := some (JText.jstr ("ab".toList)) }]

/-- A one-record knowledge base used by the concrete witnesses: type tag
`"t"`, no codes, text `"ab"`. -/
def docT : JDoc :=
  { type? := some ("t".toList), codes := [], text? := some (JText.jstr ("ab".toList)) }

/-- A loaded knowledge base holding `docT` once. -/
def kbOne : KB := ([docT], [_char_ngrams ("ab".toList)])

/-- A loaded knowledge base holding `docT` twice. -/
def kbTwo : KB := ([docT, docT], [_char_ngrams ("ab".toList), _char_ngrams ("ab".toList)])

/-! ### Helper lemmas: stripping and fences -/

theorem pyLStrip_within (s : List Char) : pyLStrip s <:+ s :=
  List.dropWhile_suffix isPySpace

theorem pyRStrip_within (t : List Char) : pyRStrip t <+: t := by
  obtain ⟨w, hw⟩ := List.dropWhile_suffix (l := t.reverse) isPySpace
  exact ⟨w.reverse, by
    rw [pyRStrip, ← List.reverse_append, hw, List.reverse_reverse]⟩

theorem pyStrip_within (s : List Char) : pyStrip s <:+: s :=
  (pyRStrip_within (pyLStrip s)).isInfix.trans (pyLStrip_within s).isInfix

theorem noFence_of_within {s t : List Char} (h : s <:+: t) (hnt : ¬ HasFence t) :
    ¬ HasFence s := fun hs => hnt (hs.trans h)

theorem fenceMatchAt_eq_none {s : List Char} (h : ¬ HasFence s) :
    fenceMatchAt s = none := by
  have h1 : ¬ (fenceMarker.isPrefixOf s = true) := fun hp =>
    h ( List.isPrefixOf_iff_prefix.mp hp).isInfix
  have h2 : ¬ ((decide (0 < wsRunLen s) && fenceMarker.isPrefixOf
      (s.drop (wsRunLen s))) = true) := by
    intro hc
    rw [Bool.and_eq_true] at hc
    exact h (( List.isPrefixOf_iff_prefix.mp hc.2).isInfix.trans
      (List.drop_suffix _ s).isInfix)
  simp only [fenceMatchAt]
  rw [if_neg h1, if_neg h2]

theorem fenceSubAux_eq_self : ∀ (n : Nat) (s : List Char), ¬ HasFence s →
    fenceSubAux n s = s
  | 0, _, _ => rfl
  | _ + 1, [], _ => rfl
  | n + 1, c :: cs, h => by
    rw [fenceSubAux, fenceMatchAt_eq_none h]
    have hcs : ¬ HasFence cs := fun hf => h (List.infix_cons hf)
    rw [fenceSubAux_eq_self n cs hcs]

theorem fenceSub_eq_self {s : List Char} (h : ¬ HasFence s) : fenceSub s = s :=
  fenceSubAux_eq_self s.length s h

theorem strip_code_fences_of_noFence {s : List Char} (h : ¬ HasFence s) :
    _strip_code_fences s = pyStrip s := by
  rw [_strip_code_fences]
  split
  · next he => rw [he]; rfl
  · rw [fenceSub_eq_self h]

theorem within_append_split {α : Type} {t a b : List α} (h : t <:+: a ++ b) :
    t <:+: a ∨ t <:+: b ∨ ∃ u v, u ++ v = t ∧ u ≠ [] ∧ u <:+ a ∧ v <+: b := by
  obtain ⟨l, r, hlr⟩ := h
  rcases List.append_eq_append_iff.mp hlr with ⟨a', ha, _⟩ | ⟨c', hlt, hb⟩
  · exact Or.inl ⟨l, a', ha.symm⟩
  · rcases List.append_eq_append_iff.mp hlt with ⟨w, haw, htw⟩ | ⟨w, _, hc'⟩
    · by_cases hw : w = []
      · subst hw
        simp only [List.nil_append] at htw
        exact Or.inr (Or.inl ⟨[], r, by simp [htw, hb]⟩)
      · exact Or.inr (Or.inr ⟨w, c', htw.symm, hw, ⟨l, haw.symm⟩, ⟨r, hb.symm⟩⟩)
    · refine Or.inr (Or.inl ⟨w, r, ?_⟩)
      rw [hb, hc']

theorem noFence_append_nn {a b : List Char} (ha : ¬ HasFence a) (hb : ¬ HasFence b) :
    ¬ HasFence (a ++ ("\n\n".toList) ++ b) := by
  have hnn : ("\n\n".toList) = ['\n', '\n'] := by decide
  intro h
  rcases within_append_split (t := fenceMarker) (a := a ++ ("\n\n".toList)) (b := b) h with
    h1 | h2 | ⟨u, v, huv, hune, hus, _⟩
  · -- the marker sits inside `a ++ "\n\n"`
    rcases within_append_split (t := fenceMarker) (a := a) (b := "\n\n".toList) h1 with
      g1 | g2 | ⟨u, v, huv, hune, hus, hvp⟩
    · exact ha g1
    · rw [hnn] at g2
      exact absurd g2 (by decide)
    · -- a marker split `u ++ v` with `v` a nonempty piece of the separator
      cases v with
      | nil =>
        rw [List.append_nil] at huv
        subst huv
        exact ha hus.isInfix
      | cons y v' =>
        have hyf : y ∈ fenceMarker := huv ▸ List.mem_append_right u (List.mem_cons_self y v')
        have hyb : y = '`' := by simpa [fenceMarker] using hyf
        have hyn : y = '\n' := by
          have := hvp.subset (List.mem_cons_self y v')
          rw [hnn] at this
          simpa using this
        rw [hyb] at hyn
        exact absurd hyn (by decide)
  · exact hb h2
  · -- a marker split `u ++ v` with `u` a nonempty suffix of `a ++ "\n\n"`:
    -- `u` then ends in a newline, yet every marker character is a backtick
    obtain ⟨p, hp⟩ := hus
    obtain ⟨x, hx⟩ := Option.isSome_iff_exists.mp (List.getLast?_isSome.mpr hune)
    have hxu : x ∈ u := List.mem_of_mem_getLast? (by rw [hx]; rfl)
    have hxf : x ∈ fenceMarker := huv ▸ List.mem_append_left v hxu
    have hxb : x = '`' := by simpa [fenceMarker] using hxf
    have hx1 : (p ++ u).getLast? = some x := by
      rw [List.getLast?_append_of_ne_nil p hune, hx]
    rw [hp, List.getLast?_append_of_ne_nil a (by rw [hnn]; decide), hnn] at hx1
    have hxn : x = '\n' := by simpa using hx1.symm
    rw [hxb] at hxn
    exact absurd hxn (by decide)

/-! ### Helper lemmas: the stable descending sort and the bullet loop -/

theorem insertDescByScore_perm (x : ℚ × Nat) (l : List (ℚ × Nat)) :
    List.Perm (insertDescByScore x l) (x :: l) := by
  induction l with
  | nil => exact List.Perm.refl _
  | cons y ys ih =>
    rw [insertDescByScore]
    split
    · exact List.Perm.refl _
    · exact (ih.cons y).trans (List.Perm.swap x y ys)

theorem sortByScoreDesc_perm (l : List (ℚ × Nat)) : List.Perm (sortByScoreDesc l) l := by
  induction l with
  | nil => exact List.Perm.refl _
  | cons a l ih =>
    exact (insertDescByScore_perm a (sortByScoreDesc l)).trans (ih.cons a)

theorem insertDescByScore_pairwise (x : ℚ × Nat) {l : List (ℚ × Nat)}
    (h : List.Pairwise (fun a b => b.1 ≤ a.1) l) :
    List.Pairwise (fun a b => b.1 ≤ a.1) (insertDescByScore x l) := by
  induction l with
  | nil => simp [insertDescByScore]
  | cons y ys ih =>
    rw [insertDescByScore]
    rcases List.pairwise_cons.mp h with ⟨hy, hys⟩
    split
    · next hle =>
      refine List.pairwise_cons.mpr ⟨?_, h⟩
      intro z hz
      rcases List.mem_cons.mp hz with rfl | hz
      · exact hle
      · exact (hy z hz).trans hle
    · next hlt =>
      push_neg at hlt
      refine List.pairwise_cons.mpr ⟨?_, ih hys⟩
      intro z hz
      rcases List.mem_cons.mp ((insertDescByScore_perm x ys).mem_iff.mp hz) with rfl | hz
      · exact le_of_lt hlt
      · exact hy z hz

theorem sortByScoreDesc_pairwise (l : List (ℚ × Nat)) :
    List.Pairwise (fun a b => b.1 ≤ a.1) (sortByScoreDesc l) := by
  induction l with
  | nil => simp [sortByScoreDesc]
  | cons a l ih => exact insertDescByScore_pairwise a ih

theorem insertDescByScore_filter (x : ℚ × Nat) (l : List (ℚ × Nat)) (s : ℚ) :
    (insertDescByScore x l).filter (fun y => decide (y.1 = s)) =
      (if x.1 = s then [x] else []) ++ l.filter (fun y => decide (y.1 = s)) := by
  induction l with
  | nil =>
    rw [insertDescByScore]
    by_cases hx : x.1 = s <;> simp [hx]
  | cons y ys ih =>
    rw [insertDescByScore]
    split
    · next hle =>
      by_cases hx : x.1 = s <;> simp [List.filter_cons, hx]
    · next hlt =>
      push_neg at hlt
      by_cases hx : x.1 = s
      · have hy : ¬ (y.1 = s) := by
          intro hys
          rw [← hx] at hys
          exact absurd hys (ne_of_gt hlt)
        simp [List.filter_cons, hy, ih, hx]
      · simp [List.filter_cons, ih, hx]

theorem sortByScoreDesc_stable (l : List (ℚ × Nat)) (s : ℚ) :
    (sortByScoreDesc l).filter (fun y => decide (y.1 = s)) =
      l.filter (fun y => decide (y.1 = s)) := by
  induction l with
  | nil => rfl
  | cons a l ih =>
    show (insertDescByScore a (sortByScoreDesc l)).filter _ = _
    rw [insertDescByScore_filter, ih, List.filter_cons]
    by_cases ha : a.1 = s <;> simp [ha]

theorem chunksGo_length_le (docs : List JDoc) (mc : Int) :
    ∀ (picked : List Nat) (total : Nat),
      (chunksGo docs mc picked total).length ≤ picked.length := by
  intro picked
  induction picked with
  | nil => intro total; simp [chunksGo]
  | cons i rest ih =>
    intro total
    rw [chunksGo]
    split
    · simp
    · simpa using Nat.succ_le_succ (ih _)

theorem chunksGo_budget (docs : List JDoc) (mc : Int) :
    ∀ (picked : List Nat) (total : Nat),
      chunksGo docs mc picked total = [] ∨
        (total : Int) + sumLens (chunksGo docs mc picked total) ≤ mc := by
  intro picked
  induction picked with
  | nil => intro total; exact Or.inl rfl
  | cons i rest ih =>
    intro total
    rw [chunksGo]
    split
    · exact Or.inl rfl
    · next hle =>
      push_neg at hle
      right
      rcases ih (total + (pieceOf (docs.getD i default)).length) with he | hb
      · rw [he]
        simpa [sumLens] using hle
      · rw [sumLens] at hb ⊢
        simp only [List.map_cons, List.sum_cons]
        push_cast at hb ⊢
        linarith

theorem intercalate_cons₂ (sep x y : List Char) (l : List (List Char)) :
    List.intercalate sep (x :: y :: l) = x ++ sep ++ List.intercalate sep (y :: l) := by
  simp [List.intercalate]

theorem length_intercalate_of_ne_nil (sep : List Char) :
    ∀ l : List (List Char), l ≠ [] →
      (List.intercalate sep l).length = sumLens l + sep.length * (l.length - 1) := by
  intro l
  induction l with
  | nil => intro h; exact absurd rfl h
  | cons x l ih =>
    intro _
    cases l with
    | nil => simp [List.intercalate, sumLens]
    | cons y l' =>
      rw [intercalate_cons₂]
      have hne : y :: l' ≠ [] := by simp
      simp only [List.length_append, ih hne, sumLens, List.map_cons, List.sum_cons,
        List.length_cons]
      simp only [Nat.add_sub_cancel]
      ring

theorem enumFrom_le_fst {α : Type} : ∀ (n : Nat) (l : List α),
    ∀ p ∈ List.enumFrom n l, n ≤ p.1 := by
  intro n l
  induction l generalizing n with
  | nil => intro p hp; simp at hp
  | cons x xs ih =>
    intro p hp
    rw [List.enumFrom_cons] at hp
    rcases List.mem_cons.mp hp with rfl | hp
    · exact le_refl n
    · exact (Nat.le_succ n).trans (ih (n + 1) p hp)

theorem enumFrom_fst_sorted {α : Type} : ∀ (n : Nat) (l : List α),
    List.Pairwise (fun a b => a.1 < b.1) (List.enumFrom n l) := by
  intro n l
  induction l generalizing n with
  | nil => simp
  | cons x xs ih =>
    rw [List.enumFrom_cons]
    refine List.pairwise_cons.mpr ⟨?_, ih (n + 1)⟩
    intro p hp
    exact Nat.lt_of_succ_le (enumFrom_le_fst (n + 1) xs p hp)

theorem scoredOf_idx_sorted (qset : Finset (List Char))
    (ngrams : List (Finset (List Char))) :
    List.Pairwise (fun a b => a.2 < b.2) (scoredOf qset ngrams) := by
  rw [scoredOf]
  rw [List.pairwise_filterMap]
  have h := enumFrom_fst_sorted 0 ngrams
  rw [show List.enumFrom 0 ngrams = ngrams.enum from rfl] at h
  refine h.imp ?_
  intro a b hab x hx y hy
  have key : ∀ (p : Nat × Finset (List Char)) (z : ℚ × Nat),
      z ∈ (if p.2 = ∅ then none
        else if (qset ∩ p.2).card = 0 then none
        else some (jaccardScore qset p.2, p.1)) → z.2 = p.1 := by
    intro p z hz
    by_cases h1 : p.2 = ∅
    · simp [h1] at hz
    · by_cases h2 : (qset ∩ p.2).card = 0
      · simp [h1, h2] at hz
      · simp [h1, h2] at hz
        simp [← hz]
  rw [key a x hx, key b y hy]
  exact hab

/-! ### Claim theorems -/

/-- C7: for every incident description (and any knowledge base and backend),
when the `google.generativeai` dependency is unavailable
`get_consultation_response` returns exactly the fixed apology string at once,
with no retrieval effect (the result is independent of the knowledge base) and
zero outbound generation calls (the call log is empty). -/
theorem c7_genai_unavailable_fixed_apology (kb : KB) (incident : List Char)
    (gen : List Char → Except (List Char) (List Char)) :
    get_consultation_response false kb incident gen = (APOLOGY_NO_GENAI, []) := rfl

/-- C9: the knowledge-store load is idempotent after the first attempt: the
first call always populates the cache (whatever the file content, including a
missing file), a call on a populated cache returns it unchanged whatever file
the path now points to, and hence a second load never modifies the result of
the first. -/
theorem c9_load_idempotent_after_first :
    (∀ file, ∃ kb, _load_kb_once none file = some kb) ∧
    (∀ kb file, _load_kb_once (some kb) file = some kb) ∧
    (∀ f₁ f₂, _load_kb_once (_load_kb_once none f₁) f₂ = _load_kb_once none f₁) := by
  refine ⟨?_, fun kb file => rfl, ?_⟩
  · intro file
    cases file with
    | none => exact ⟨([], []), rfl⟩
    | some lines => exact ⟨parseKbFile lines, rfl⟩
  · intro f₁ f₂
    cases f₁ with
    | none => rfl
    | some lines => rfl

/-- C10 is violated by the code: on `c10File` the loader appends the first
record to the document list, but the n-gram computation for it raises and the
blanket `except` skips the n-gram append, so the cached lists end up with
lengths 2 and 1; the single n-gram set (index 0) is derived from the *second*
document's text while document index 0 is the truthy-text record, so scoring
would address the wrong document. -/
theorem c10_loader_desync_on_truthy_text :
    (parseKbFile c10File).1.length = 2 ∧
    (parseKbFile c10File).2.length = 1 ∧
    (parseKbFile c10File).2 = [_char_ngrams ("ab".toList)] ∧
    ((parseKbFile c10File).1.getD 0 default).text? = some JText.jtruthy := by
  refine ⟨rfl, rfl, rfl, rfl⟩

/-- C8: for every query n-gram set and every non-empty document n-gram set
with nonzero intersection, the Jaccard score
`|I| / (|U| + 1e-9)` is strictly positive and at most 1. -/
theorem c8_jaccard_score_in_unit_interval (qset dset : Finset (List Char))
    (_hd : dset ≠ ∅) (hI : (qset ∩ dset).card ≠ 0) :
    0 < jaccardScore qset dset ∧ jaccardScore qset dset ≤ 1 := by
  have hI1 : 1 ≤ (qset ∩ dset).card := Nat.one_le_iff_ne_zero.mpr hI
  have hIU : (qset ∩ dset).card ≤ (qset ∪ dset).card :=
    Finset.card_le_card Finset.inter_subset_union
  have hden : (0 : ℚ) < ((qset ∪ dset).card : ℚ) + jaccardEps := by
    have : (0 : ℚ) ≤ ((qset ∪ dset).card : ℚ) := by positivity
    have heps : (0 : ℚ) < jaccardEps := by norm_num [jaccardEps]
    linarith
  constructor
  · rw [jaccardScore]
    refine div_pos ?_ hden
    exact_mod_cast Nat.lt_of_lt_of_le Nat.zero_lt_one hI1
  · rw [jaccardScore, div_le_one hden]
    have h1 : ((qset ∩ dset).card : ℚ) ≤ ((qset ∪ dset).card : ℚ) := by
      exact_mod_cast hIU
    have heps : (0 : ℚ) < jaccardEps := by norm_num [jaccardEps]
    linarith

/-- Witness for C8 at the concrete one-element sets `{"ab"}`. -/
theorem c8_jaccard_score_in_unit_interval_witness :
    (({['a', 'b']} : Finset (List Char)) ≠ ∅ ∧
      ((({['a', 'b']} : Finset (List Char)) ∩ {['a', 'b']}).card ≠ 0)) ∧
    (0 < jaccardScore {['a', 'b']} {['a', 'b']} ∧
      jaccardScore {['a', 'b']} {['a', 'b']} ≤ 1) :=
  ⟨by decide, c8_jaccard_score_in_unit_interval _ _ (by decide) (by decide)⟩

/-- C4 as stated is false: `_strip_code_fences` ends in `str.strip()`, so the
fence-free input `"a "` (trailing blank) is changed to `"a"` rather than
returned unchanged. -/
theorem c4_counterexample_trailing_blank :
    ¬ HasFence ("a ".toList) ∧ _strip_code_fences ("a ".toList) ≠ "a ".toList := by
  constructor
  · decide
  · decide

/-- C4 amended: on every string containing no code-fence marker the
fence-stripping function acts exactly as `str.strip()` — the regex
substitution is the identity, and only leading/trailing whitespace removal
remains (so it is a no-op precisely on inputs with no edge whitespace). -/
theorem c4_strip_on_fence_free_is_pystrip (s : List Char) (h : ¬ HasFence s) :
    _strip_code_fences s = pyStrip s := strip_code_fences_of_noFence h

/-- Witness for the amended C4 at `"ab "`. -/
theorem c4_strip_on_fence_free_is_pystrip_witness :
    (¬ HasFence ("ab ".toList)) ∧
      _strip_code_fences ("ab ".toList) = pyStrip ("ab ".toList) :=
  ⟨by decide, c4_strip_on_fence_free_is_pystrip _ (by decide)⟩

/-- C6: the four degraded outcomes of `retrieve_relevant_knowledge` are
signalled by four pairwise-distinct fixed sentinel strings, checked in order:
no documents (for any query), then empty query n-gram set, then no document
with nonzero intersection, then a size budget that excludes every bullet
(instead of an empty string or a partial bullet). -/
theorem c6_four_distinct_sentinels_in_order (kb : KB) (query : List Char)
    (top_k max_chars : Int) :
    (SENTINEL_NO_KB ≠ SENTINEL_EMPTY_QUERY ∧ SENTINEL_NO_KB ≠ SENTINEL_NO_MATCH ∧
      SENTINEL_NO_KB ≠ SENTINEL_BUDGET ∧ SENTINEL_EMPTY_QUERY ≠ SENTINEL_NO_MATCH ∧
      SENTINEL_EMPTY_QUERY ≠ SENTINEL_BUDGET ∧ SENTINEL_NO_MATCH ≠ SENTINEL_BUDGET) ∧
    (kb.1 = [] →
      retrieve_relevant_knowledge kb query top_k max_chars = SENTINEL_NO_KB) ∧
    (kb.1 ≠ [] → kb.2 ≠ [] → _char_ngrams query = ∅ →
      retrieve_relevant_knowledge kb query top_k max_chars = SENTINEL_EMPTY_QUERY) ∧
    (kb.1 ≠ [] → kb.2 ≠ [] → _char_ngrams query ≠ ∅ →
      scoredOf (_char_ngrams query) kb.2 = [] →
      retrieve_relevant_knowledge kb query top_k max_chars = SENTINEL_NO_MATCH) ∧
    (kb.1 ≠ [] → kb.2 ≠ [] → _char_ngrams query ≠ ∅ →
      scoredOf (_char_ngrams query) kb.2 ≠ [] →
      chunksGo kb.1 max_chars (pickedOf (scoredOf (_char_ngrams query) kb.2) top_k) 0 = [] →
      retrieve_relevant_knowledge kb query top_k max_chars = SENTINEL_BUDGET) := by
  refine ⟨by decide, ?_, ?_, ?_, ?_⟩
  · intro h1
    simp [retrieve_relevant_knowledge, h1]
  · intro h1 h2 h3
    simp [retrieve_relevant_knowledge, h1, h2, h3]
  · intro h1 h2 h3 h4
    simp [retrieve_relevant_knowledge, h1, h2, h3, h4]
  · intro h1 h2 h3 h4 h5
    simp [retrieve_relevant_knowledge, h1, h2, h3, h4, h5]

/-- Witness for C6: each of the four sentinels is actually reached — empty
knowledge base; empty query on a one-record base; query `"zzz"` sharing no
bigram; and a budget of 5 characters that excludes the only 10-character
bullet. -/
theorem c6_four_distinct_sentinels_in_order_witness :
    retrieve_relevant_knowledge (([], []) : KB) ("ab".toList) 12 5000 = SENTINEL_NO_KB ∧
    retrieve_relevant_knowledge kbOne ("".toList) 12 5000 = SENTINEL_EMPTY_QUERY ∧
    retrieve_relevant_knowledge kbOne ("zzz".toList) 12 5000 = SENTINEL_NO_MATCH ∧
    retrieve_relevant_knowledge kbOne ("ab".toList) 12 5 = SENTINEL_BUDGET :=
  ⟨(c6_four_distinct_sentinels_in_order _ _ _ _).2.1 rfl,
   (c6_four_distinct_sentinels_in_order _ _ _ _).2.2.1 (by decide) (by decide) (by decide),
   (c6_four_distinct_sentinels_in_order _ _ _ _).2.2.2.1 (by decide) (by decide)
     (by decide) (by decide),
   (c6_four_distinct_sentinels_in_order _ _ _ _).2.2.2.2 (by decide) (by decide)
     (by decide) (by decide) (by decide)⟩

/-- C1: with the generation dependency available, for every knowledge base,
incident and backend behaviour, the two generation calls are the only failure
points and both are caught: if the Step-1 call raises, the function returns
the single fallback string embedding the error text, having made only that one
call (no Step-2 call, no Step-2 content); if Step 1 succeeds and the Step-2
call raises, it likewise returns only the fallback string.  Totality of this
Lean function (raises are the oracle's `.error` branch) embeds "never raises
to the caller". -/
theorem c1_generation_errors_fall_back (kb : KB) (incident : List Char)
    (gen : List Char → Except (List Char) (List Char)) (e : List Char) :
    (gen (masterPrompt (retrieve_relevant_knowledge kb incident 12 5000) incident) =
        Except.error e →
      get_consultation_response true kb incident gen =
        (ERROR_FALLBACK_HEAD ++ e,
          [masterPrompt (retrieve_relevant_knowledge kb incident 12 5000) incident])) ∧
    (∀ t₁, gen (masterPrompt (retrieve_relevant_knowledge kb incident 12 5000) incident) =
        Except.ok t₁ →
      gen (execPrompt (pyStrip incident) (pyStrip (_strip_code_fences t₁))) =
        Except.error e →
      get_consultation_response true kb incident gen =
        (ERROR_FALLBACK_HEAD ++ e,
          [masterPrompt (retrieve_relevant_knowledge kb incident 12 5000) incident,
            execPrompt (pyStrip incident) (pyStrip (_strip_code_fences t₁))])) := by
  constructor
  · intro h
    simp [get_consultation_response, h]
  · intro t₁ h₁ h₂
    simp [get_consultation_response, h₁, h₂]

/-- Witness for C1: a backend that always raises with message `"boom"`. -/
theorem c1_generation_errors_fall_back_witness :
    ((fun _ => Except.error ("boom".toList) :
        List Char → Except (List Char) (List Char))
      (masterPrompt (retrieve_relevant_knowledge (([], []) : KB) ("x".toList) 12 5000)
        ("x".toList)) = Except.error ("boom".toList)) ∧
    get_consultation_response true (([], []) : KB) ("x".toList)
        (fun _ => Except.error ("boom".toList)) =
      (ERROR_FALLBACK_HEAD ++ "boom".toList,
        [masterPrompt (retrieve_relevant_knowledge (([], []) : KB) ("x".toList) 12 5000)
          ("x".toList)]) :=
  ⟨rfl, (c1_generation_errors_fall_back _ _ _ _).1 rfl⟩

/-- C2 as stated is false: the Step-2 response is appended without fence
stripping, so a backend whose responses are fenced yields a combined report
that still contains a code-fence marker. -/
theorem c2_counterexample_step2_fence_survives :
    HasFence (get_consultation_response true (([], []) : KB) ("i".toList)
      (fun _ => Except.ok ("```json\nX\n```".toList))).1 := by decide

/-- C2 amended: only the Step-1 response is passed through the fence
stripper; the Step-2 response is appended verbatim (trimmed).  Consequently
the combined markdown is fence-free whenever neither raw backend response
contains a fence marker, but fences in the Step-2 response survive into the
output (see the counterexample). -/
theorem c2_unfenced_when_backend_unfenced (kb : KB) (incident : List Char)
    (gen : List Char → Except (List Char) (List Char)) (t₁ t₂ : List Char)
    (h₁ : gen (masterPrompt (retrieve_relevant_knowledge kb incident 12 5000) incident) =
      Except.ok t₁)
    (h₂ : gen (execPrompt (pyStrip incident) (pyStrip (_strip_code_fences t₁))) =
      Except.ok t₂)
    (hf₁ : ¬ HasFence t₁) (hf₂ : ¬ HasFence t₂) :
    ¬ HasFence (get_consultation_response true kb incident gen).1 := by
  have hA : ¬ HasFence (pyStrip (_strip_code_fences t₁)) := by
    rw [strip_code_fences_of_noFence hf₁]
    exact noFence_of_within (pyStrip_within _)
      (noFence_of_within (pyStrip_within _) hf₁)
  have hB : ¬ HasFence (pyStrip t₂) :=
    noFence_of_within (pyStrip_within _) hf₂
  have hAB : ¬ HasFence (pyStrip (_strip_code_fences t₁) ++ '\n' :: '\n' :: pyStrip t₂) := by
    have h := noFence_append_nn hA hB
    rw [show ("\n\n".toList) = ['\n', '\n'] from by decide, List.append_assoc] at h
    simpa using h
  simp [get_consultation_response, h₁, h₂]
  split
  · exact hA
  · exact hAB

/-- Witness for the amended C2: a backend answering `"A"` to both prompts. -/
theorem c2_unfenced_when_backend_unfenced_witness :
    (¬ HasFence ("A".toList)) ∧
    ¬ HasFence (get_consultation_response true (([], []) : KB) ("i".toList)
      (fun _ => Except.ok ("A".toList))).1 :=
  ⟨by decide,
   c2_unfenced_when_backend_unfenced _ _ _ _ _ rfl rfl (by decide) (by decide)⟩

/-- C5: the ranking used by retrieval is exactly the stable descending sort of
the scored list by score alone — it is a permutation of the scored list,
ordered by non-increasing score, and for each score value the entries keep
their relative order from the scored list, whose indices are themselves in
increasing (first-seen) document order; the selection takes the first
`max(1, top_k)` ranked entries, and never more than `max(1, top_k)` bullets
are rendered. -/
theorem c5_stable_descending_topk (kb : KB) (query : List Char)
    (top_k max_chars : Int) :
    List.Perm (sortByScoreDesc (scoredOf (_char_ngrams query) kb.2))
        (scoredOf (_char_ngrams query) kb.2) ∧
    List.Pairwise (fun a b => b.1 ≤ a.1)
      (sortByScoreDesc (scoredOf (_char_ngrams query) kb.2)) ∧
    (∀ s : ℚ,
      (sortByScoreDesc (scoredOf (_char_ngrams query) kb.2)).filter
          (fun y => decide (y.1 = s)) =
        (scoredOf (_char_ngrams query) kb.2).filter (fun y => decide (y.1 = s))) ∧
    List.Pairwise (fun a b => a.2 < b.2) (scoredOf (_char_ngrams query) kb.2) ∧
    pickedOf (scoredOf (_char_ngrams query) kb.2) top_k =
      ((sortByScoreDesc (scoredOf (_char_ngrams query) kb.2)).take
        (max 1 top_k).toNat).map (fun p => p.2) ∧
    ((chunksGo kb.1 max_chars
        (pickedOf (scoredOf (_char_ngrams query) kb.2) top_k) 0).length : Int)
      ≤ max 1 top_k := by
  refine ⟨sortByScoreDesc_perm _, sortByScoreDesc_pairwise _,
    fun s => sortByScoreDesc_stable _ s, scoredOf_idx_sorted _ _, rfl, ?_⟩
  have h1 := chunksGo_length_le kb.1 max_chars
    (pickedOf (scoredOf (_char_ngrams query) kb.2) top_k) 0
  have h2 : (pickedOf (scoredOf (_char_ngrams query) kb.2) top_k).length
      ≤ (max 1 top_k).toNat := by
    rw [pickedOf, List.length_map]
    exact List.length_take_le _ _
  have h3 : ((max 1 top_k).toNat : Int) = max 1 top_k :=
    Int.toNat_of_nonneg (le_trans zero_le_one (le_max_left 1 top_k))
  calc ((chunksGo kb.1 max_chars
      (pickedOf (scoredOf (_char_ngrams query) kb.2) top_k) 0).length : Int)
      ≤ ((max 1 top_k).toNat : Int) := by exact_mod_cast le_trans h1 h2
    _ = max 1 top_k := h3

/-- C3 as stated is false: the budget `total` counts only bullet lengths, not
the newline separators that `"\n".join` inserts, so with two 10-character
bullets and `max_chars = 20` the returned block has 21 characters. -/
theorem c3_counterexample_separators_uncounted :
    retrieve_relevant_knowledge kbTwo ("ab".toList) 12 20 =
      "- [t]\n  ab\n- [t]\n  ab".toList ∧
    (20 : Int) < (("- [t]\n  ab\n- [t]\n  ab".toList).length : Int) := by
  constructor
  · have hsc : scoredOf (_char_ngrams ("ab".toList)) kbTwo.2 =
        [(jaccardScore (_char_ngrams ("ab".toList)) (_char_ngrams ("ab".toList)), 0),
         (jaccardScore (_char_ngrams ("ab".toList)) (_char_ngrams ("ab".toList)), 1)] := rfl
    have hsort : sortByScoreDesc (scoredOf (_char_ngrams ("ab".toList)) kbTwo.2) =
        [(jaccardScore (_char_ngrams ("ab".toList)) (_char_ngrams ("ab".toList)), 0),
         (jaccardScore (_char_ngrams ("ab".toList)) (_char_ngrams ("ab".toList)), 1)] := by
      rw [hsc]
      show insertDescByScore _ (insertDescByScore _ []) = _
      rw [insertDescByScore, insertDescByScore, if_pos (le_refl _)]
    have hpick : pickedOf (scoredOf (_char_ngrams ("ab".toList)) kbTwo.2) 12 = [0, 1] := by
      rw [pickedOf, hsort]
      rfl
    simp only [retrieve_relevant_knowledge]
    rw [if_neg (by decide), if_neg (by decide), if_neg (by decide), hpick]
    decide
  · decide

/-- C3 amended: when retrieval returns formatted bullets, the bullets are the
prefix computed by the budget loop joined with newlines; the *sum of bullet
lengths* is at most `max_chars` (the loop stops before any bullet that would
push this sum past the budget), but the newline separators are not counted, so
the returned string itself is only bounded by `max_chars` plus one character
per separator (`bullets − 1`) and can exceed `max_chars` (see the
counterexample). -/
theorem c3_bullet_budget_bound (kb : KB) (query : List Char)
    (top_k max_chars : Int)
    (h1 : kb.1 ≠ []) (h2 : kb.2 ≠ []) (h3 : _char_ngrams query ≠ ∅)
    (h4 : scoredOf (_char_ngrams query) kb.2 ≠ [])
    (h5 : chunksGo kb.1 max_chars
      (pickedOf (scoredOf (_char_ngrams query) kb.2) top_k) 0 ≠ []) :
    retrieve_relevant_knowledge kb query top_k max_chars =
      List.intercalate ("\n".toList)
        (chunksGo kb.1 max_chars
          (pickedOf (scoredOf (_char_ngrams query) kb.2) top_k) 0) ∧
    (sumLens (chunksGo kb.1 max_chars
      (pickedOf (scoredOf (_char_ngrams query) kb.2) top_k) 0) : Int) ≤ max_chars ∧
    ((retrieve_relevant_knowledge kb query top_k max_chars).length : Int)
      ≤ max_chars + ((chunksGo kb.1 max_chars
          (pickedOf (scoredOf (_char_ngrams query) kb.2) top_k) 0).length : Int) - 1 := by
  have heq : retrieve_relevant_knowledge kb query top_k max_chars =
      List.intercalate ("\n".toList)
        (chunksGo kb.1 max_chars
          (pickedOf (scoredOf (_char_ngrams query) kb.2) top_k) 0) := by
    simp [retrieve_relevant_knowledge, h1, h2, h3, h4, h5]
  have hsum : (sumLens (chunksGo kb.1 max_chars
      (pickedOf (scoredOf (_char_ngrams query) kb.2) top_k) 0) : Int) ≤ max_chars := by
    rcases chunksGo_budget kb.1 max_chars
        (pickedOf (scoredOf (_char_ngrams query) kb.2) top_k) 0 with he | hb
    · exact absurd he h5
    · simpa using hb
  refine ⟨heq, hsum, ?_⟩
  rw [heq, length_intercalate_of_ne_nil _ _ h5]
  have hpos : 0 < (chunksGo kb.1 max_chars
      (pickedOf (scoredOf (_char_ngrams query) kb.2) top_k) 0).length :=
    List.length_pos.mpr h5
  have hlen : (("\n".toList)).length = 1 := by decide
  rw [hlen]
  push_cast
  omega

/-- Witness for the amended C3 on the one-record base `kbOne` with the default
budget 5000. -/
theorem c3_bullet_budget_bound_witness :
    (kbOne.1 ≠ [] ∧ kbOne.2 ≠ [] ∧ _char_ngrams ("ab".toList) ≠ ∅ ∧
      scoredOf (_char_ngrams ("ab".toList)) kbOne.2 ≠ [] ∧
      chunksGo kbOne.1 5000
        (pickedOf (scoredOf (_char_ngrams ("ab".toList)) kbOne.2) 12) 0 ≠ []) ∧
    ((retrieve_relevant_knowledge kbOne ("ab".toList) 12 5000).length : Int)
      ≤ 5000 + ((chunksGo kbOne.1 5000
          (pickedOf (scoredOf (_char_ngrams ("ab".toList)) kbOne.2) 12) 0).length : Int)
        - 1 :=
  ⟨⟨by decide, by decide, by decide, by decide, by decide⟩,
   (c3_bullet_budget_bound kbOne ("ab".toList) 12 5000 (by decide) (by decide)
     (by decide) (by decide) (by decide)).2.2⟩
